import Mathlib

/-
Shallow embedding of the dependency-injection container in src/index.ts
(the canonical, parent-fallback-capable revision of the file).

Modelling conventions:
- JavaScript values are modelled by `Val`; object identity (reference
  equality) is a natural-number id carried by `Val.vObj`, together with two
  flags recording whether the object exposes the asynchronous and the
  synchronous disposal capability (the source probes these with the
  JavaScript in operator on the two well-known symbols).
- JavaScript truthiness is the `truthy` predicate.
- A `ServiceFactory` receives the id of the resolution-context object that
  the source passes as the first argument, and a fresh-id supply used to
  model allocation of new objects; it returns the constructed value, the
  advanced supply, and the list of values the factory handed to the
  disposal-registration callback, or an error when the factory throws.
- Mutation (the singleton store slot, the Map caches, the disposal lists)
  is modelled by explicit state passing: each operation returns the updated
  records, and callers write updated TaggedService records back into the
  binding table at the same object id, mirroring aliasing in the source.
- Teardown is modelled by the chronological list of release events it
  performs; the list order is the execution order, so an event placed
  earlier happens (and, for asynchronous releases, is awaited) strictly
  before every later event.
-/

inductive Val where
  | vUndefined
  | vNull
  | vBool (b : Bool)
  | vNum (n : Int)
  | vStr (s : String)
  | vObj (id : Nat) (asyncCap : Bool) (syncCap : Bool)
deriving DecidableEq, Repr

/-- JavaScript truthiness of a value. -/
def truthy : Val → Bool
  | .vUndefined => false
  | .vNull => false
  | .vBool b => b
  | .vNum n => n != 0
  | .vStr s => s != ""
  | .vObj _ _ _ => true

/-- Errors thrown by the source: TypeError values it constructs itself, and
arbitrary user errors thrown inside factories or constructors. -/
inductive JsError where
  | typeError (msg : String)
  | userError (code : Nat)
deriving DecidableEq, Repr

/-- Service keys: the three class values the source compares against by
reference in its self-resolution checks, and ordinary user keys. -/
inductive Key where
  | serviceCollection
  | serviceContainer
  | serviceHost
  | user (n : Nat)
deriving DecidableEq, Repr

/-- The check Symbol.asyncDispose in instance. -/
def hasAsyncDisposeCap : Val → Bool
  | .vObj _ a _ => a
  | _ => false

/-- The check Symbol.dispose in instance. -/
def hasSyncDisposeCap : Val → Bool
  | .vObj _ _ s => s
  | _ => false

/-- DisposableRegistry: the private ordered list of registered resources. -/
structure DisposableRegistry where
  dispose : List Val
deriving DecidableEq, Repr

/-- DisposableRegistry.register: push appends at the end. -/
def DisposableRegistry.register (r : DisposableRegistry) (d : Val) : DisposableRegistry :=
  { dispose := r.dispose ++ [d] }

/-- Registering a list of resources one after the other, as the
registration callback does for each value a factory hands it. -/
def DisposableRegistry.registerAll (r : DisposableRegistry) : List Val → DisposableRegistry
  | [] => r
  | d :: rest => DisposableRegistry.registerAll (r.register d) rest

/-- One release action performed during teardown. -/
inductive DisposeEvent where
  | asyncRelease (v : Val)
  | syncRelease (v : Val)
deriving DecidableEq, Repr

/-- The body of the teardown loop for one item: two independent capability
checks, the asynchronous release (awaited) first, then the synchronous
release. -/
def releaseItemEvents (item : Val) : List DisposeEvent :=
  (if hasAsyncDisposeCap item then [DisposeEvent.asyncRelease item] else []) ++
  (if hasSyncDisposeCap item then [DisposeEvent.syncRelease item] else [])

/-- The teardown loop over the old list, in registration order. -/
def releaseAll : List Val → List DisposeEvent
  | [] => []
  | item :: rest => releaseItemEvents item ++ releaseAll rest

/-- DisposableRegistry async dispose: swap the internal list for an empty
one, then release every resource from the old list in order. The returned
event list is the chronological sequence of release actions. -/
def DisposableRegistry.asyncDispose (r : DisposableRegistry) :
    DisposableRegistry × List DisposeEvent :=
  let oldDispose := r.dispose
  ({ dispose := [] }, releaseAll oldDispose)

/-- ServiceFactory: context-object id and fresh-id supply to constructed
value, advanced supply, and values handed to the registration callback. -/
abbrev ServiceFactory : Type :=
  Nat → Nat → Except JsError (Val × Nat × List Val)

/-- TaggedService: the tagged union of binding records; only the singleton
variant carries the mutable store slot (undefined at registration). -/
inductive TaggedService where
  | scoped (factory : ServiceFactory)
  | transient (factory : ServiceFactory)
  | singleton (factory : ServiceFactory) (store : Val)

/-- The lifetime tag of a binding record. -/
inductive Tag where
  | scoped
  | transient
  | singleton
deriving DecidableEq, Repr

def TaggedService.tag : TaggedService → Tag
  | .scoped _ => Tag.scoped
  | .transient _ => Tag.transient
  | .singleton _ _ => Tag.singleton

/-- getFromTaggedService: lifetime dispatch. The argument services is the
id of the ServiceCollection object passed as factory context. Returns the
resolved value, the updated binding record (the singleton branch assigns
the store slot of the shared record), the advanced supply, and the values
registered through the callback. The scoped branch throws. The tagged
union is exhaustive, so the final invalid-tag throw of the source is
unreachable and has no arm here. -/
def getFromTaggedService (services : Nat) (tagged : TaggedService) (fresh : Nat) :
    Except JsError (Val × TaggedService × Nat × List Val) :=
  match tagged with
  | .transient factory =>
    match factory services fresh with
    | .error e => .error e
    | .ok (v, fresh₁, regs) => .ok (v, .transient factory, fresh₁, regs)
  | .singleton factory store =>
    if truthy store then
      .ok (store, .singleton factory store, fresh, [])
    else
      match factory services fresh with
      | .error e => .error e
      | .ok (v, fresh₁, regs) => .ok (v, .singleton factory v, fresh₁, regs)
  | .scoped _ => .error (JsError.typeError "Cannot create service outside of scope")

/-- ServiceHost state: its own object id, the binding table (key maps to
the id of the TaggedService object and the record itself; the id models
the identity of the record object created at registration), the disposal
registry owned by the inherited ServiceCollection, and the fresh supply. -/
structure ServiceHost where
  selfId : Nat
  services : List (Key × Nat × TaggedService)
  registry : DisposableRegistry
  fresh : Nat

/-- Map.get on the binding table. -/
def lookupService : List (Key × Nat × TaggedService) → Key → Option (Nat × TaggedService)
  | [], _ => none
  | (k, entry) :: rest, key => if k = key then some entry else lookupService rest key

/-- Map.set on the binding table (overwrites the entry for the key). -/
def servicesSet : List (Key × Nat × TaggedService) → Key → Nat × TaggedService →
    List (Key × Nat × TaggedService)
  | [], key, entry => [(key, entry)]
  | (k, e) :: rest, key, entry =>
    if k = key then (key, entry) :: rest else (k, e) :: servicesSet rest key entry

/-- Write an updated TaggedService record back at its object id: this
models the in-place mutation of the record that every alias observes. -/
def storeBack : List (Key × Nat × TaggedService) → Nat → TaggedService →
    List (Key × Nat × TaggedService)
  | [], _, _ => []
  | (k, id, r) :: rest, tid, rec =>
    if id = tid then (k, tid, rec) :: storeBack rest tid rec
    else (k, id, r) :: storeBack rest tid rec

/-- The host viewed as a JavaScript value: its identity, with the
asynchronous disposal capability every ServiceCollection exposes. -/
def ServiceHost.hostVal (h : ServiceHost) : Val :=
  Val.vObj h.selfId true false

/-- ServiceCollection.get as inherited by ServiceHost (super.get): look up
the tag; absent means return it (undefined); otherwise run lifetime
dispatch with this collection as context and this collection's disposal
registration callback, writing the updated record back at its id. -/
def ServiceHost.collectionGet (h : ServiceHost) (key : Key) :
    Except JsError (Val × ServiceHost) :=
  match lookupService h.services key with
  | none => .ok (Val.vUndefined, h)
  | some (tid, tagged) =>
    match getFromTaggedService h.selfId tagged h.fresh with
    | .error e => .error e
    | .ok (v, tagged₁, fresh₁, regs) =>
      .ok (v, { h with
        services := storeBack h.services tid tagged₁,
        fresh := fresh₁,
        registry := h.registry.registerAll regs })

/-- ServiceHost.get: the three reference-equality self-resolution checks
(ServiceCollection, ServiceHost, ServiceContainer, in source order), then
super.get. -/
def ServiceHost.get (h : ServiceHost) (key : Key) :
    Except JsError (Val × ServiceHost) :=
  if key = Key.serviceCollection then .ok (h.hostVal, h)
  else if key = Key.serviceHost then .ok (h.hostVal, h)
  else if key = Key.serviceContainer then .ok (h.hostVal, h)
  else ServiceHost.collectionGet h key

/-- registerIfDisposable: if the instance exposes either disposal
capability, hand it to the callback; return the instance together with the
values handed to the callback. -/
def registerIfDisposable (inst : Val) : Val × List Val :=
  if hasAsyncDisposeCap inst || hasSyncDisposeCap inst then (inst, [inst])
  else (inst, [])

/-- The four registration shapes of CompatibleService, by the branch of
createServiceFactory that handles them. A callable value carries the
behaviour of attempting collection.inject(service, collection) and the
behaviour of the plain call service(collection); the array shape carries
the behaviour of collection.inject(base, ...service); the third shape is
an already-constructed value. Each behaviour receives the id of the
collection passed and the fresh supply, and may throw. -/
inductive CompatibleService where
  | callable (injectRun : Nat → Nat → Except JsError (Val × Nat))
             (plainRun : Nat → Nat → Except JsError (Val × Nat))
  | argsArray (injectRun : Nat → Nat → Except JsError (Val × Nat))
  | value (v : Val)

/-- ServiceHost createServiceFactory: synthesize a uniform factory.
For a callable, try the injection path; on any thrown error fall back to
calling the service as a plain factory with the collection as argument.
Every successful path passes the instance through registerIfDisposable. -/
def ServiceHost.createServiceFactory : CompatibleService → ServiceFactory
  | .callable injectRun plainRun => fun collection fresh =>
    match injectRun collection fresh with
    | .ok (v, fresh₁) =>
      let (inst, regs) := registerIfDisposable v
      .ok (inst, fresh₁, regs)
    | .error _ =>
      match plainRun collection fresh with
      | .ok (v, fresh₁) =>
        let (inst, regs) := registerIfDisposable v
        .ok (inst, fresh₁, regs)
      | .error e => .error e
  | .argsArray injectRun => fun collection fresh =>
    match injectRun collection fresh with
    | .ok (v, fresh₁) =>
      let (inst, regs) := registerIfDisposable v
      .ok (inst, fresh₁, regs)
    | .error e => .error e
  | .value v => fun _ fresh =>
    let (inst, regs) := registerIfDisposable v
    .ok (inst, fresh, regs)

/-- addSingleton: store a fresh singleton record with an undefined store
slot; the record object id is drawn from the supply. -/
def ServiceHost.addSingleton (h : ServiceHost) (base : Key) (service : CompatibleService) :
    ServiceHost :=
  { h with
    services := servicesSet h.services base
      (h.fresh, TaggedService.singleton (ServiceHost.createServiceFactory service) Val.vUndefined),
    fresh := h.fresh + 1 }

/-- addScoped: store a fresh scoped record. -/
def ServiceHost.addScoped (h : ServiceHost) (base : Key) (service : CompatibleService) :
    ServiceHost :=
  { h with
    services := servicesSet h.services base
      (h.fresh, TaggedService.scoped (ServiceHost.createServiceFactory service)),
    fresh := h.fresh + 1 }

/-- addTransient: store a fresh transient record. -/
def ServiceHost.addTransient (h : ServiceHost) (base : Key) (service : CompatibleService) :
    ServiceHost :=
  { h with
    services := servicesSet h.services base
      (h.fresh, TaggedService.transient (ServiceHost.createServiceFactory service)),
    fresh := h.fresh + 1 }

/-- ServiceScope state: its own object id, the private Map from
TaggedService object identity to cached scoped instance, and its own
disposal registry. The parent collection is passed explicitly to get. -/
structure ServiceScope where
  selfId : Nat
  cache : List (Nat × Val)
  registry : DisposableRegistry

/-- Map.get on the scope cache (keyed by binding-record id). -/
def cacheLookup : List (Nat × Val) → Nat → Option Val
  | [], _ => none
  | (tid, v) :: rest, key => if tid = key then some v else cacheLookup rest key

/-- Map.set on the scope cache. -/
def cacheSet : List (Nat × Val) → Nat → Val → List (Nat × Val)
  | [], key, v => [(key, v)]
  | (tid, w) :: rest, key, v =>
    if tid = key then (key, v) :: rest else (tid, w) :: cacheSet rest key v

/-- The scope viewed as a JavaScript value. -/
def ServiceScope.scopeVal (s : ServiceScope) : Val :=
  Val.vObj s.selfId true false

/-- ServiceScope.get against its base collection (a ServiceHost, as
produced by createScope): self-resolution of ServiceCollection returns the
scope; an absent tag falls back to base.get; a scoped tag is served from
the scope cache when the cached value is truthy, otherwise the factory
runs with the scope as context and the scope registry, and the result is
cached; any other tag is delegated to getFromTaggedService with the base
as context and the base registry. -/
def ServiceScope.get (s : ServiceScope) (base : ServiceHost) (key : Key) :
    Except JsError (Val × ServiceScope × ServiceHost) :=
  if key = Key.serviceCollection then .ok (s.scopeVal, s, base)
  else
    match lookupService base.services key with
    | none =>
      match ServiceHost.get base key with
      | .error e => .error e
      | .ok (v, base₁) => .ok (v, s, base₁)
    | some (tid, tagged) =>
      match tagged with
      | .scoped factory =>
        let value := (cacheLookup s.cache tid).getD Val.vUndefined
        if truthy value then .ok (value, s, base)
        else
          match factory s.selfId base.fresh with
          | .error e => .error e
          | .ok (newValue, fresh₁, regs) =>
            .ok (newValue,
              { s with
                cache := cacheSet s.cache tid newValue,
                registry := s.registry.registerAll regs },
              { base with fresh := fresh₁ })
      | _ =>
        match getFromTaggedService base.selfId tagged base.fresh with
        | .error e => .error e
        | .ok (v, tagged₁, fresh₁, regs) =>
          .ok (v, s, { base with
            services := storeBack base.services tid tagged₁,
            fresh := fresh₁,
            registry := base.registry.registerAll regs })

/-- createScope: a new ServiceScope with an empty cache and a fresh
registry, chained to this container; the scope object id is drawn from the
supply. -/
def ServiceHost.createScope (h : ServiceHost) : ServiceScope × ServiceHost :=
  ({ selfId := h.fresh, cache := [], registry := { dispose := [] } },
   { h with fresh := h.fresh + 1 })

/- Shared lemmas -/

/-- Looking a key up after writing a record back at the id the key maps to
yields the new record. -/
theorem lookupService_storeBack (l : List (Key × Nat × TaggedService)) (key : Key)
    (tid : Nat) (rec rec₁ : TaggedService)
    (hl : lookupService l key = some (tid, rec)) :
    lookupService (storeBack l tid rec₁) key = some (tid, rec₁) := by
  induction l with
  | nil => simp [lookupService] at hl
  | cons head rest ih =>
    obtain ⟨k, id, r⟩ := head
    by_cases hk : k = key
    · subst hk
      simp [lookupService] at hl
      obtain ⟨h1, _⟩ := hl
      subst h1
      simp [storeBack, lookupService]
    · simp [lookupService, hk] at hl
      by_cases hid : id = tid
      · simp [storeBack, hid, lookupService, hk, ih hl]
      · simp [storeBack, hid, lookupService, hk, ih hl]

/-- Looking up the cache key just written yields the written value. -/
theorem cacheLookup_cacheSet (c : List (Nat × Val)) (tid : Nat) (v : Val) :
    cacheLookup (cacheSet c tid v) tid = some v := by
  induction c with
  | nil => simp [cacheSet, cacheLookup]
  | cons head rest ih =>
    obtain ⟨id, w⟩ := head
    by_cases hid : id = tid
    · simp [cacheSet, hid, cacheLookup]
    · simp [cacheSet, hid, cacheLookup, ih]

/-- get on a user key passes the three self-resolution checks and reaches
the inherited ServiceCollection.get. -/
theorem hostGet_user (h : ServiceHost) (m : Nat) :
    ServiceHost.get h (Key.user m) = ServiceHost.collectionGet h (Key.user m) := by
  simp [ServiceHost.get]

/-- The host state after a successful lifetime dispatch: updated record
written back at its id, advanced supply, registrations appended. -/
def hostAfterDispatch (h : ServiceHost) (tid : Nat) (tagged₁ : TaggedService)
    (fresh₁ : Nat) (regs : List Val) : ServiceHost :=
  { h with
    services := storeBack h.services tid tagged₁
    fresh := fresh₁
    registry := h.registry.registerAll regs }

/-- ServiceCollection.get on a singleton whose store is truthy: cache hit. -/
theorem collectionGet_singleton_hit (h : ServiceHost) (key : Key) (tid : Nat)
    (f : ServiceFactory) (st : Val)
    (hl : lookupService h.services key = some (tid, TaggedService.singleton f st))
    (ht : truthy st = true) :
    ServiceHost.collectionGet h key =
      Except.ok (st, hostAfterDispatch h tid (TaggedService.singleton f st) h.fresh []) := by
  simp [ServiceHost.collectionGet, hl, getFromTaggedService, ht, hostAfterDispatch]

/-- ServiceCollection.get on a singleton whose store is falsy: the factory
runs with this collection as context and its result is written to the
store slot and returned. -/
theorem collectionGet_singleton_miss (h : ServiceHost) (key : Key) (tid : Nat)
    (f : ServiceFactory) (st v : Val) (fresh₁ : Nat) (regs : List Val)
    (hl : lookupService h.services key = some (tid, TaggedService.singleton f st))
    (ht : truthy st = false)
    (hrun : f h.selfId h.fresh = Except.ok (v, fresh₁, regs)) :
    ServiceHost.collectionGet h key =
      Except.ok (v, hostAfterDispatch h tid (TaggedService.singleton f v) fresh₁ regs) := by
  simp [ServiceHost.collectionGet, hl, getFromTaggedService, ht, hrun, hostAfterDispatch]

/- Concrete instances used by witnesses -/

/-- A factory allocating a fresh (truthy) object on every call. -/
def freshObjFactory : ServiceFactory :=
  fun _ n => Except.ok (Val.vObj n false false, n + 1, [])

/-- A factory returning numeric zero (falsy) on every call. -/
def zeroFactory : ServiceFactory :=
  fun _ n => Except.ok (Val.vNum 0, n + 1, [])

/-- A host with a singleton binding to the fresh-object factory. -/
def hostSingletonTruthy : ServiceHost :=
  { selfId := 9
    services := [(Key.user 0, 0, TaggedService.singleton freshObjFactory Val.vUndefined)]
    registry := { dispose := [] }
    fresh := 5 }

/-- A host with a singleton binding to the falsy factory. -/
def hostSingletonFalsy : ServiceHost :=
  { selfId := 9
    services := [(Key.user 1, 1, TaggedService.singleton zeroFactory Val.vUndefined)]
    registry := { dispose := [] }
    fresh := 5 }

/-- Claim C1: for a key bound as singleton, the lifetime dispatch returns
the cached slot value when it holds a truthy value and otherwise invokes
the factory, stores the result in the slot, and returns it; consequently,
for every singleton whose factory returns a truthy value, two resolutions
via get on the same container return the identical instance, while a falsy
construction result is never recognized as already computed and the
factory is re-invoked on every subsequent resolution (witnessed by the
fresh supply advancing on both resolutions). -/
theorem C1_singleton_lifetime :
    (∀ (ctx : Nat) (f : ServiceFactory) (st : Val) (fresh : Nat),
        truthy st = true →
        getFromTaggedService ctx (TaggedService.singleton f st) fresh =
          Except.ok (st, TaggedService.singleton f st, fresh, [])) ∧
    (∀ (ctx : Nat) (f : ServiceFactory) (st v : Val) (fresh fresh₁ : Nat) (regs : List Val),
        truthy st = false →
        f ctx fresh = Except.ok (v, fresh₁, regs) →
        getFromTaggedService ctx (TaggedService.singleton f st) fresh =
          Except.ok (v, TaggedService.singleton f v, fresh₁, regs)) ∧
    (∀ (h : ServiceHost) (m tid : Nat) (f : ServiceFactory) (st : Val),
        lookupService h.services (Key.user m) = some (tid, TaggedService.singleton f st) →
        (∀ c n, ∃ v n₁ rs, f c n = Except.ok (v, n₁, rs) ∧ truthy v = true) →
        ∃ v h₁ h₂,
          ServiceHost.get h (Key.user m) = Except.ok (v, h₁) ∧
          ServiceHost.get h₁ (Key.user m) = Except.ok (v, h₂)) ∧
    (∀ (h : ServiceHost) (m tid : Nat) (f : ServiceFactory) (st w : Val),
        lookupService h.services (Key.user m) = some (tid, TaggedService.singleton f st) →
        truthy st = false →
        truthy w = false →
        (∀ c n, f c n = Except.ok (w, n + 1, [])) →
        ∃ h₁ h₂,
          ServiceHost.get h (Key.user m) = Except.ok (w, h₁) ∧ h₁.fresh = h.fresh + 1 ∧
          ServiceHost.get h₁ (Key.user m) = Except.ok (w, h₂) ∧ h₂.fresh = h.fresh + 2) := by
  refine ⟨?_, ?_, ?_, ?_⟩
  · intro ctx f st fresh ht
    simp [getFromTaggedService, ht]
  · intro ctx f st v fresh fresh₁ regs ht hrun
    simp [getFromTaggedService, ht, hrun]
  · intro h m tid f st hl hf
    by_cases hst : truthy st = true
    · refine ⟨st, hostAfterDispatch h tid (TaggedService.singleton f st) h.fresh [],
        hostAfterDispatch (hostAfterDispatch h tid (TaggedService.singleton f st) h.fresh [])
          tid (TaggedService.singleton f st) h.fresh [], ?_, ?_⟩
      · rw [hostGet_user]
        exact collectionGet_singleton_hit h _ tid f st hl hst
      · rw [hostGet_user]
        exact collectionGet_singleton_hit _ _ tid f st
          (lookupService_storeBack _ _ _ _ _ hl) hst
    · have hstf : truthy st = false := by simpa using hst
      rcases hf h.selfId h.fresh with ⟨v, n₁, rs, hrun, htr⟩
      refine ⟨v, hostAfterDispatch h tid (TaggedService.singleton f v) n₁ rs,
        hostAfterDispatch (hostAfterDispatch h tid (TaggedService.singleton f v) n₁ rs)
          tid (TaggedService.singleton f v) n₁ [], ?_, ?_⟩
      · rw [hostGet_user]
        exact collectionGet_singleton_miss h _ tid f st v n₁ rs hl hstf hrun
      · rw [hostGet_user]
        exact collectionGet_singleton_hit _ _ tid f v
          (lookupService_storeBack _ _ _ _ _ hl) htr
  · intro h m tid f st w hl hst hw hf
    refine ⟨hostAfterDispatch h tid (TaggedService.singleton f w) (h.fresh + 1) [],
      hostAfterDispatch (hostAfterDispatch h tid (TaggedService.singleton f w) (h.fresh + 1) [])
        tid (TaggedService.singleton f w) (h.fresh + 2) [], ?_, rfl, ?_, ?_⟩
    · rw [hostGet_user]
      exact collectionGet_singleton_miss h _ tid f st w (h.fresh + 1) [] hl hst (hf _ _)
    · rw [hostGet_user]
      exact collectionGet_singleton_miss _ _ tid f w w (h.fresh + 2) []
        (lookupService_storeBack _ _ _ _ _ hl) hw (hf _ _)
    · rfl

/-- Witness for C1 at concrete inputs. -/
theorem C1_singleton_lifetime_witness :
    (getFromTaggedService 0 (TaggedService.singleton freshObjFactory (Val.vNum 7)) 5 =
      Except.ok (Val.vNum 7, TaggedService.singleton freshObjFactory (Val.vNum 7), 5, [])) ∧
    (getFromTaggedService 0 (TaggedService.singleton freshObjFactory Val.vUndefined) 5 =
      Except.ok (Val.vObj 5 false false,
        TaggedService.singleton freshObjFactory (Val.vObj 5 false false), 6, [])) ∧
    (∃ v h₁ h₂,
      ServiceHost.get hostSingletonTruthy (Key.user 0) = Except.ok (v, h₁) ∧
      ServiceHost.get h₁ (Key.user 0) = Except.ok (v, h₂)) ∧
    (∃ h₁ h₂,
      ServiceHost.get hostSingletonFalsy (Key.user 1) = Except.ok (Val.vNum 0, h₁) ∧
      h₁.fresh = hostSingletonFalsy.fresh + 1 ∧
      ServiceHost.get h₁ (Key.user 1) = Except.ok (Val.vNum 0, h₂) ∧
      h₂.fresh = hostSingletonFalsy.fresh + 2) :=
  ⟨C1_singleton_lifetime.1 0 freshObjFactory (Val.vNum 7) 5 (by decide),
   C1_singleton_lifetime.2.1 0 freshObjFactory Val.vUndefined (Val.vObj 5 false false) 5 6 []
     (by decide) rfl,
   C1_singleton_lifetime.2.2.1 hostSingletonTruthy 0 0 freshObjFactory Val.vUndefined rfl
     (fun c n => ⟨Val.vObj n false false, n + 1, [], rfl, rfl⟩),
   C1_singleton_lifetime.2.2.2 hostSingletonFalsy 1 1 zeroFactory Val.vUndefined (Val.vNum 0)
     rfl (by decide) (by decide) (fun c n => rfl)⟩

/-- Claim C8: get on a ServiceHost with the key for ServiceCollection,
ServiceContainer, or ServiceHost itself returns the same host instance
(its own object identity), for every host state whatsoever: the binding
table is never consulted and no registration is required. -/
theorem C8_self_resolution (h : ServiceHost) :
    ServiceHost.get h Key.serviceCollection = Except.ok (h.hostVal, h) ∧
    ServiceHost.get h Key.serviceContainer = Except.ok (h.hostVal, h) ∧
    ServiceHost.get h Key.serviceHost = Except.ok (h.hostVal, h) := by
  refine ⟨?_, ?_, ?_⟩ <;> simp [ServiceHost.get]

/-- Claim C5: teardown of a disposal registry first swaps the internal
list for an empty one, then releases every resource from the old list
strictly in registration order (the event list is the chronological
release sequence, each asynchronous release awaited before the loop moves
on); after registering D1, D2, D3 in that order, the releases of D1 come
strictly before those of D2, which come strictly before those of D3, and
a second teardown with no intervening registrations releases nothing. -/
theorem C5_disposal_order_idempotent :
    (∀ d₁ d₂ d₃ : Val,
      DisposableRegistry.asyncDispose
          ((((DisposableRegistry.mk []).register d₁).register d₂).register d₃) =
        ({ dispose := [] },
          releaseItemEvents d₁ ++ releaseItemEvents d₂ ++ releaseItemEvents d₃)) ∧
    (∀ r : DisposableRegistry, (DisposableRegistry.asyncDispose r).1 = { dispose := [] }) ∧
    (∀ r : DisposableRegistry,
      (DisposableRegistry.asyncDispose (DisposableRegistry.asyncDispose r).1).2 = []) := by
  refine ⟨?_, ?_, ?_⟩
  · intro d₁ d₂ d₃
    simp [DisposableRegistry.asyncDispose, DisposableRegistry.register, releaseAll]
  · intro r
    rfl
  · intro r
    rfl

/-- Claim C10: during teardown, a registered resource exposing both the
asynchronous and the synchronous release capability has both invoked on
it, the asynchronous release first (awaited), then the synchronous one,
before the loop reaches the remaining resources: the two capability
checks in the loop body are independent, not mutually exclusive. -/
theorem C10_both_release_capabilities (v : Val) (rest : List Val)
    (ha : hasAsyncDisposeCap v = true) (hs : hasSyncDisposeCap v = true) :
    DisposableRegistry.asyncDispose { dispose := v :: rest } =
      ({ dispose := [] },
        DisposeEvent.asyncRelease v :: DisposeEvent.syncRelease v :: releaseAll rest) := by
  simp [DisposableRegistry.asyncDispose, releaseAll, releaseItemEvents, ha, hs]

/-- Witness for C10 at a concrete resource with both capabilities. -/
theorem C10_both_release_capabilities_witness :
    DisposableRegistry.asyncDispose { dispose := [Val.vObj 4 true true] } =
      ({ dispose := [] },
        [DisposeEvent.asyncRelease (Val.vObj 4 true true),
         DisposeEvent.syncRelease (Val.vObj 4 true true)]) :=
  C10_both_release_capabilities (Val.vObj 4 true true) [] rfl rfl

/-- An empty host used by the C3 and C4 statements. -/
def emptyHost : ServiceHost :=
  { selfId := 0, services := [], registry := { dispose := [] }, fresh := 1 }

/-- A scope with nothing cached, used by the C3 witness. -/
def emptyScope : ServiceScope :=
  { selfId := 7, cache := [], registry := { dispose := [] } }

/-- Counterexample to claim C3 as stated: the key for ServiceHost was
never registered on an empty host, yet get does not return the not-found
result undefined; the self-resolution override returns the host object
itself. -/
theorem C3_counterexample :
    lookupService emptyHost.services Key.serviceHost = none ∧
    ServiceHost.get emptyHost Key.serviceHost =
      Except.ok (emptyHost.hostVal, emptyHost) ∧
    emptyHost.hostVal ≠ Val.vUndefined :=
  ⟨rfl, rfl, by decide⟩

/-- Claim C3 (amended): for every key that was never registered and is not
one of the self-resolution keys (ServiceCollection, ServiceContainer,
ServiceHost), get on the root container and get on a scope return the
explicit not-found result undefined and never throw. -/
theorem C3_unregistered_returns_undefined (h : ServiceHost) (s : ServiceScope) (key : Key)
    (hnr : lookupService h.services key = none)
    (h₁ : key ≠ Key.serviceCollection)
    (h₂ : key ≠ Key.serviceContainer)
    (h₃ : key ≠ Key.serviceHost) :
    ServiceHost.get h key = Except.ok (Val.vUndefined, h) ∧
    ServiceScope.get s h key = Except.ok (Val.vUndefined, s, h) := by
  have hhost : ServiceHost.get h key = Except.ok (Val.vUndefined, h) := by
    simp [ServiceHost.get, h₁, h₂, h₃, ServiceHost.collectionGet, hnr]
  refine ⟨hhost, ?_⟩
  simp [ServiceScope.get, h₁, hnr, hhost]

/-- Witness for the amended C3 at concrete inputs. -/
theorem C3_unregistered_returns_undefined_witness :
    ServiceHost.get emptyHost (Key.user 3) = Except.ok (Val.vUndefined, emptyHost) ∧
    ServiceScope.get emptyScope emptyHost (Key.user 3) =
      Except.ok (Val.vUndefined, emptyScope, emptyHost) :=
  C3_unregistered_returns_undefined emptyHost emptyScope (Key.user 3) rfl
    (by decide) (by decide) (by decide)

/-- A host on which the ServiceCollection key itself is bound as scoped. -/
def hostScopedSelfKey : ServiceHost :=
  ServiceHost.addScoped emptyHost Key.serviceCollection (CompatibleService.value (Val.vNum 5))

/-- Counterexample to claim C4 as stated: a key bound as scoped
(ServiceCollection, which registration accepts) for which get on the root
container does not throw; the self-resolution override answers first and
returns the host. -/
theorem C4_counterexample :
    lookupService hostScopedSelfKey.services Key.serviceCollection =
      some (1, TaggedService.scoped
        (ServiceHost.createServiceFactory (CompatibleService.value (Val.vNum 5)))) ∧
    ServiceHost.get hostScopedSelfKey Key.serviceCollection =
      Except.ok (hostScopedSelfKey.hostVal, hostScopedSelfKey) :=
  ⟨rfl, rfl⟩

/-- Claim C4 (amended): for every key bound as scoped other than the three
self-resolution keys, get on the root container (a non-scope context)
throws the scope-misuse TypeError rather than returning a value or the
not-found result. -/
theorem C4_scoped_on_root_throws (h : ServiceHost) (key : Key) (tid : Nat)
    (f : ServiceFactory)
    (h₁ : key ≠ Key.serviceCollection)
    (h₂ : key ≠ Key.serviceContainer)
    (h₃ : key ≠ Key.serviceHost)
    (hl : lookupService h.services key = some (tid, TaggedService.scoped f)) :
    ServiceHost.get h key =
      Except.error (JsError.typeError "Cannot create service outside of scope") := by
  simp [ServiceHost.get, h₁, h₂, h₃, ServiceHost.collectionGet, hl, getFromTaggedService]

/-- A host with an ordinary key bound as scoped, for the C4 witness. -/
def hostScopedUserKey : ServiceHost :=
  ServiceHost.addScoped emptyHost (Key.user 2) (CompatibleService.value (Val.vNum 5))

/-- Witness for the amended C4 at concrete inputs. -/
theorem C4_scoped_on_root_throws_witness :
    ServiceHost.get hostScopedUserKey (Key.user 2) =
      Except.error (JsError.typeError "Cannot create service outside of scope") :=
  C4_scoped_on_root_throws hostScopedUserKey (Key.user 2) 1
    (ServiceHost.createServiceFactory (CompatibleService.value (Val.vNum 5)))
    (by decide) (by decide) (by decide) rfl

/-- Claim C6: when a scope resolves a key whose binding has a non-scoped
tag, resolution is delegated to the parent collection: the parent (base)
object is the factory context (the hypothesis fixes the dispatch at the
parent id h.selfId) and the registrations land in the parent disposal
registry, while the scope value returned is the unchanged s — its local
cache and its disposal registry are left exactly as they were. -/
theorem C6_scope_delegates_to_parent (s : ServiceScope) (h : ServiceHost) (m tid : Nat)
    (tagged : TaggedService) (v : Val) (tagged₁ : TaggedService) (fresh₁ : Nat)
    (regs : List Val)
    (hl : lookupService h.services (Key.user m) = some (tid, tagged))
    (hns : tagged.tag ≠ Tag.scoped)
    (hrun : getFromTaggedService h.selfId tagged h.fresh = Except.ok (v, tagged₁, fresh₁, regs)) :
    ServiceScope.get s h (Key.user m) =
      Except.ok (v, s, hostAfterDispatch h tid tagged₁ fresh₁ regs) := by
  cases tagged
  next f => exact absurd rfl hns
  next f => simp [ServiceScope.get, hl, hrun, hostAfterDispatch]
  next f st => simp [ServiceScope.get, hl, hrun, hostAfterDispatch]

/-- A host with a transient binding to a disposable already-constructed
value, for the C6 witness. -/
def hostTransientDisposable : ServiceHost :=
  { selfId := 9
    services := [(Key.user 6, 4, TaggedService.transient
      (ServiceHost.createServiceFactory (CompatibleService.value (Val.vObj 8 true false))))]
    registry := { dispose := [] }
    fresh := 30 }

/-- Witness for C6 at concrete inputs. -/
theorem C6_scope_delegates_to_parent_witness :
    ServiceScope.get emptyScope hostTransientDisposable (Key.user 6) =
      Except.ok (Val.vObj 8 true false, emptyScope,
        hostAfterDispatch hostTransientDisposable 4
          (TaggedService.transient
            (ServiceHost.createServiceFactory (CompatibleService.value (Val.vObj 8 true false))))
          30 [Val.vObj 8 true false]) :=
  C6_scope_delegates_to_parent emptyScope hostTransientDisposable 6 4
    (TaggedService.transient
      (ServiceHost.createServiceFactory (CompatibleService.value (Val.vObj 8 true false))))
    (Val.vObj 8 true false)
    (TaggedService.transient
      (ServiceHost.createServiceFactory (CompatibleService.value (Val.vObj 8 true false))))
    30 [Val.vObj 8 true false] rfl (by decide) rfl

/-- Claim C7: for a registration whose binding is a callable value, the
synthesized factory first attempts construction via the injection path
with the resolution context as sole explicit argument (when that attempt
succeeds its result is used and the plain path plays no part), and if the
attempt raises any error whatsoever — the error value is universally
quantified, covering a legitimate error thrown inside a valid
constructor — it falls back to invoking the callable directly as a plain
factory function on the resolution context. -/
theorem C7_two_path_factory (injectRun plainRun : Nat → Nat → Except JsError (Val × Nat))
    (ctx fresh : Nat) :
    (∀ v fresh₁, injectRun ctx fresh = Except.ok (v, fresh₁) →
      ServiceHost.createServiceFactory (CompatibleService.callable injectRun plainRun)
          ctx fresh =
        Except.ok ((registerIfDisposable v).1, fresh₁, (registerIfDisposable v).2)) ∧
    (∀ e, injectRun ctx fresh = Except.error e →
      ServiceHost.createServiceFactory (CompatibleService.callable injectRun plainRun)
          ctx fresh =
        match plainRun ctx fresh with
        | Except.ok (v, fresh₁) =>
            Except.ok ((registerIfDisposable v).1, fresh₁, (registerIfDisposable v).2)
        | Except.error e₁ => Except.error e₁) := by
  constructor
  · intro v fresh₁ hinj
    simp [ServiceHost.createServiceFactory, hinj]
  · intro e hinj
    simp [ServiceHost.createServiceFactory, hinj]

/-- An injection attempt failing with an error thrown inside the
constructor body. -/
def injectFailRun : Nat → Nat → Except JsError (Val × Nat) :=
  fun _ _ => Except.error (JsError.userError 7)

/-- An injection attempt that succeeds with a disposable instance. -/
def injectOkRun : Nat → Nat → Except JsError (Val × Nat) :=
  fun _ n => Except.ok (Val.vObj 2 true false, n + 1)

/-- A plain factory call that succeeds. -/
def plainOkRun : Nat → Nat → Except JsError (Val × Nat) :=
  fun _ n => Except.ok (Val.vObj 3 false false, n)

/-- Witness for C7 at concrete inputs: the failing injection attempt falls
back to the plain call, and the successful injection attempt is used. -/
theorem C7_two_path_factory_witness :
    ServiceHost.createServiceFactory (CompatibleService.callable injectFailRun plainOkRun)
        5 7 = Except.ok (Val.vObj 3 false false, 7, []) ∧
    ServiceHost.createServiceFactory (CompatibleService.callable injectOkRun plainOkRun)
        5 7 = Except.ok (Val.vObj 2 true false, 8, [Val.vObj 2 true false]) :=
  ⟨(C7_two_path_factory injectFailRun plainOkRun 5 7).2 (JsError.userError 7) rfl,
   (C7_two_path_factory injectOkRun plainOkRun 5 7).1 (Val.vObj 2 true false) 8 rfl⟩

/-- Claim C2: for a key bound as scoped with a factory allocating a fresh
(truthy, distinct) object per call, two resolutions of the key within one
scope return the identical instance — the second resolution is a pure
cache hit leaving the scope and host unchanged — while two scopes created
from the same container resolve the key to distinct instances, each scope
caching in its own map keyed by the binding record. -/
theorem C2_scoped_lifetimes (h : ServiceHost) (m tid : Nat) (f : ServiceFactory)
    (hl : lookupService h.services (Key.user m) = some (tid, TaggedService.scoped f))
    (hf : ∀ c n, f c n = Except.ok (Val.vObj n false false, n + 1, [])) :
    ∃ vA vB sA₁ sB₁ h₃ h₄,
      ServiceScope.get (ServiceHost.createScope h).1
          (ServiceHost.createScope (ServiceHost.createScope h).2).2 (Key.user m) =
        Except.ok (vA, sA₁, h₃) ∧
      ServiceScope.get sA₁ h₃ (Key.user m) = Except.ok (vA, sA₁, h₃) ∧
      ServiceScope.get (ServiceHost.createScope (ServiceHost.createScope h).2).1 h₃
          (Key.user m) =
        Except.ok (vB, sB₁, h₄) ∧
      vA ≠ vB := by
  refine ⟨Val.vObj (h.fresh + 2) false false, Val.vObj (h.fresh + 3) false false,
    { selfId := h.fresh, cache := [(tid, Val.vObj (h.fresh + 2) false false)],
      registry := { dispose := [] } },
    { selfId := h.fresh + 1, cache := [(tid, Val.vObj (h.fresh + 3) false false)],
      registry := { dispose := [] } },
    { h with fresh := h.fresh + 3 }, { h with fresh := h.fresh + 4 }, ?_, ?_, ?_, ?_⟩
  · simp [ServiceScope.get, ServiceHost.createScope, hl, hf, cacheLookup, cacheSet, truthy,
      DisposableRegistry.registerAll]
  · simp [ServiceScope.get, hl, cacheLookup, truthy]
  · simp [ServiceScope.get, ServiceHost.createScope, hl, hf, cacheLookup, cacheSet, truthy,
      DisposableRegistry.registerAll]
  · simp

/-- A host with a scoped binding to the fresh-object factory, for the C2
witness. -/
def hostScopedFresh : ServiceHost :=
  { selfId := 9
    services := [(Key.user 4, 3, TaggedService.scoped freshObjFactory)]
    registry := { dispose := [] }
    fresh := 20 }

/-- Witness for C2 at concrete inputs. -/
theorem C2_scoped_lifetimes_witness :
    ∃ vA vB sA₁ sB₁ h₃ h₄,
      ServiceScope.get (ServiceHost.createScope hostScopedFresh).1
          (ServiceHost.createScope (ServiceHost.createScope hostScopedFresh).2).2
          (Key.user 4) =
        Except.ok (vA, sA₁, h₃) ∧
      ServiceScope.get sA₁ h₃ (Key.user 4) = Except.ok (vA, sA₁, h₃) ∧
      ServiceScope.get (ServiceHost.createScope (ServiceHost.createScope hostScopedFresh).2).1
          h₃ (Key.user 4) =
        Except.ok (vB, sB₁, h₄) ∧
      vA ≠ vB :=
  C2_scoped_lifetimes hostScopedFresh 4 3 freshObjFactory rfl (fun _ _ => rfl)

/-- Claim C9: for a key bound as scoped whose factory returns only falsy
values, every resolution within the same scope re-invokes the factory
(the supply advances on both resolutions) and overwrites the cache entry,
because the cache-hit check tests the cached value for truthiness rather
than for presence in the map: after the first resolution the entry is
present, yet the second resolution constructs again. -/
theorem C9_scoped_falsy_reinvocation (s : ServiceScope) (h : ServiceHost) (m tid : Nat)
    (f : ServiceFactory)
    (hl : lookupService h.services (Key.user m) = some (tid, TaggedService.scoped f))
    (hc : cacheLookup s.cache tid = none)
    (hf : ∀ c n, ∃ v, f c n = Except.ok (v, n + 1, []) ∧ truthy v = false) :
    ∃ v₁ v₂ s₁ s₂ h₁ h₂,
      ServiceScope.get s h (Key.user m) = Except.ok (v₁, s₁, h₁) ∧
      cacheLookup s₁.cache tid = some v₁ ∧
      h₁.fresh = h.fresh + 1 ∧
      ServiceScope.get s₁ h₁ (Key.user m) = Except.ok (v₂, s₂, h₂) ∧
      cacheLookup s₂.cache tid = some v₂ ∧
      h₂.fresh = h.fresh + 2 := by
  obtain ⟨v₁, hrun₁, hfal₁⟩ := hf s.selfId h.fresh
  obtain ⟨v₂, hrun₂, hfal₂⟩ := hf s.selfId (h.fresh + 1)
  refine ⟨v₁, v₂,
    { s with cache := cacheSet s.cache tid v₁ },
    { s with cache := cacheSet (cacheSet s.cache tid v₁) tid v₂ },
    { h with fresh := h.fresh + 1 }, { h with fresh := h.fresh + 2 },
    ?_, cacheLookup_cacheSet _ _ _, rfl, ?_, cacheLookup_cacheSet _ _ _, rfl⟩
  · simp [ServiceScope.get, hl, hc, hrun₁, truthy, DisposableRegistry.registerAll]
  · simp [ServiceScope.get, hl, cacheLookup_cacheSet, hfal₁, hrun₂,
      DisposableRegistry.registerAll]

/-- A factory returning numeric zero on its first call here and the empty
string afterwards: every result is falsy, and consecutive results differ. -/
def falsyAltFactory : ServiceFactory :=
  fun _ n => Except.ok (if n = 10 then Val.vNum 0 else Val.vStr "", n + 1, [])

/-- A host with a scoped binding to the alternating falsy factory, for the
C9 witness. -/
def hostScopedFalsy : ServiceHost :=
  { selfId := 9
    services := [(Key.user 5, 2, TaggedService.scoped falsyAltFactory)]
    registry := { dispose := [] }
    fresh := 10 }

/-- Witness for C9 at concrete inputs. -/
theorem C9_scoped_falsy_reinvocation_witness :
    ∃ v₁ v₂ s₁ s₂ h₁ h₂,
      ServiceScope.get emptyScope hostScopedFalsy (Key.user 5) = Except.ok (v₁, s₁, h₁) ∧
      cacheLookup s₁.cache 2 = some v₁ ∧
      h₁.fresh = hostScopedFalsy.fresh + 1 ∧
      ServiceScope.get s₁ h₁ (Key.user 5) = Except.ok (v₂, s₂, h₂) ∧
      cacheLookup s₂.cache 2 = some v₂ ∧
      h₂.fresh = hostScopedFalsy.fresh + 2 :=
  C9_scoped_falsy_reinvocation emptyScope hostScopedFalsy 5 2 falsyAltFactory rfl rfl
    (fun _ n => ⟨if n = 10 then Val.vNum 0 else Val.vStr "", rfl, by split <;> decide⟩)
